import Mathlib

/-!
Verification of the rule-augmented scam-text classification engine
(`app/rules.py`, `app/inference.py`).

The embedding is shallow: Python strings are Lean `String`s (lists of
characters), Python floats carrying probabilities/confidences are modelled
as `ℚ`, and the externally trained model (`model.pkl` / `vectorizer.pkl`,
frozen artifacts outside the repository's source) is a parameter
`clf : String → Except String ModelOutput`, where `Except.error e` models a
Python exception with message `e` raised inside the `try` block of
`predict_scam`.  Character classes of the regexes `[^a-z\s]` and `\s+` are
modelled over their ASCII meaning, and `str.lower` over ASCII case folding.
-/

namespace ElderGuard

/-- A Python value passed to the normalizers: either a `str` or any
non-string value (both sources guard with `isinstance(text, str)`). -/
inductive PyVal where
  | str (s : String)
  | nonstr

/-- ASCII case folding of one character (`str.lower`). -/
def toLowerChar (c : Char) : Char :=
  if 65 ≤ c.toNat ∧ c.toNat ≤ 90 then Char.ofNat (c.toNat + 32) else c

/-- Membership in the regex class `\s` (ASCII: space, tab, LF, VT, FF, CR). -/
def isSpaceChar (c : Char) : Bool :=
  c.toNat = 32 || c.toNat = 9 || c.toNat = 10 || c.toNat = 13 || c.toNat = 11 || c.toNat = 12

/-- A lowercase ASCII letter, i.e. a character of the class `[a-z]`. -/
def isWordChar (c : Char) : Bool :=
  97 ≤ c.toNat && c.toNat ≤ 122

/-- A character surviving `re.sub(r'[^a-z\s]', '', ·)`. -/
def isKeepChar (c : Char) : Bool :=
  isWordChar c || isSpaceChar c

/-- `re.sub(r'\s+', ' ', ·)` on a character list: every maximal run of
whitespace characters becomes a single `' '`. -/
def collapseWS : List Char → List Char
  | [] => []
  | [a] => if isSpaceChar a then [' '] else [a]
  | a :: b :: rest =>
    if isSpaceChar a then
      if isSpaceChar b then collapseWS (b :: rest)
      else ' ' :: collapseWS (b :: rest)
    else a :: collapseWS (b :: rest)

/-- `str.strip()` on a character list: drop whitespace from both ends. -/
def stripList (l : List Char) : List Char :=
  ((l.dropWhile isSpaceChar).reverse.dropWhile isSpaceChar).reverse

/-- The whole normalization pipeline on a character list:
lowercase, delete non-`[a-z\s]`, collapse whitespace runs, strip. -/
def normChars (l : List Char) : List Char :=
  stripList (collapseWS ((l.map toLowerChar).filter isKeepChar))

/-- `str.lower()`. -/
def pyLower (s : String) : String := ⟨s.data.map toLowerChar⟩

/-- `re.sub(r'[^a-z\s]', '', s)`: deletion, not replacement by space. -/
def subNonAlpha (s : String) : String := ⟨s.data.filter isKeepChar⟩

/-- `re.sub(r'\s+', ' ', s)`. -/
def subWS (s : String) : String := ⟨collapseWS s.data⟩

/-- `s.strip()`. -/
def pyStrip (s : String) : String := ⟨stripList s.data⟩

/-- `rules.normalize_text`: guard non-`str` input, lowercase, remove
characters outside `[a-z\s]`, collapse whitespace, strip. -/
def normalize_text : PyVal → String
  | PyVal.str text => pyStrip (subWS (subNonAlpha (pyLower text)))
  | PyVal.nonstr => ""

/-- `inference.preprocess_message`: the identical pipeline written
independently in `inference.py`. -/
def preprocess_message : PyVal → String
  | PyVal.str message => pyStrip (subWS (subNonAlpha (pyLower message)))
  | PyVal.nonstr => ""

/-- Helper of `pySplit`: accumulate the current word (reversed) while
scanning; words are maximal runs of non-whitespace characters. -/
def splitWSAux : List Char → List Char → List (List Char)
  | [], acc => if acc.isEmpty then [] else [acc.reverse]
  | c :: rest, acc =>
    if isSpaceChar c then
      if acc.isEmpty then splitWSAux rest []
      else acc.reverse :: splitWSAux rest []
    else splitWSAux rest (c :: acc)

/-- Python `str.split()` with no argument: split on whitespace runs,
discarding empty tokens. -/
def pySplit (s : String) : List String :=
  (splitWSAux s.data []).map fun w => ⟨w⟩

/-- Python substring test `needle in hay` on character lists. -/
def substrB (needle : List Char) : List Char → Bool
  | [] => needle.isEmpty
  | c :: rest => needle.isPrefixOf (c :: rest) || substrB needle rest

/-- Python `phrase in text` for strings. -/
def containsSub (needle hay : String) : Bool := substrB needle.data hay.data

/-! ### Phrase registries (`rules.py`) -/

/-- `rules.RAW_GREETINGS` (a Python set; modelled as a list, membership is
what matters). -/
def RAW_GREETINGS : List String :=
  ["hi", "hello", "hii", "helo", "hey", "heyy", "hellooo", "hiiii",
   "good morning", "good afternoon", "good evening", "good night",
   "morning", "afternoon", "evening",
   "how are you", "how are you?", "how r u", "how r you",
   "ok", "okay", "thanks", "thank you", "thank u", "thx", "ty",
   "hi how are you", "hello how are you", "hey how are you",
   "hi good morning", "hello good morning", "hey good morning",
   "hi good afternoon", "hello good afternoon", "hey good afternoon",
   "hi good evening", "hello good evening", "hey good evening",
   "hii good morning", "hii good afternoon", "hii good evening",
   "good morning how are you", "good afternoon how are you", "good evening how are you",
   "hi there", "hello there", "hey there",
   "whats up", "what\x27s up", "wassup", "sup",
   "nice to meet you", "pleased to meet you"]

/-- `rules.MIN_SAFE_LENGTH`. -/
def MIN_SAFE_LENGTH : Nat := 15

/-- `rules.RAW_GENUINE_MESSAGES`. -/
def RAW_GENUINE_MESSAGES : List String :=
  ["i\x27m on my way",
   "on my way",
   "running late",
   "see you soon",
   "see you later",
   "let\x27s meet",
   "let us meet",
   "let\x27s catch up",
   "call me when you can",
   "call me later",
   "can you call me",
   "received the file",
   "i received the file",
   "thanks for the update",
   "thank you for the update",
   "thank you for your help",
   "thanks for your help",
   "happy birthday",
   "congratulations",
   "congrats",
   "meeting at",
   "see attached",
   "attached is",
   "i will be there",
   "i\x27ll be there",
   "i have received",
   "payment received",
   "invoice received"]

/-- `rules.GREETINGS`: the raw greetings normalized at module load. -/
def GREETINGS : List String :=
  RAW_GREETINGS.map fun g => normalize_text (PyVal.str g)

/-- `rules.GENUINE_MESSAGES`: the raw genuine phrases normalized at module
load. -/
def GENUINE_MESSAGES : List String :=
  RAW_GENUINE_MESSAGES.map fun p => normalize_text (PyVal.str p)

/-- `rules.SCAM_KEYWORDS`. -/
def SCAM_KEYWORDS : List String :=
  ["otp", "verify", "urgent", "blocked", "suspended", "expired",
   "click", "link", "prize", "won", "winner", "lottery", "claim",
   "account", "bank", "card", "cvv", "pin", "password",
   "reward", "free", "congratulations", "confirm", "update"]

/-- The closed greeting-word vocabulary of `apply_rules`'s second rule. -/
def GREETING_WORDS : List String :=
  ["hi", "hii", "hello", "hey", "morning", "afternoon", "evening", "good",
   "night", "how", "are", "you", "r", "u", "there"]

/-- `rules.apply_rules`: ordered short-circuiting rule evaluation.
Checks, in order: exact greeting membership; all-greeting-token messages of
at most 6 words; genuine-phrase substring containment; short messages
(≤ 3 tokens or < 15 characters) guarded by the scam-keyword list. -/
def apply_rules (text : PyVal) : Option (String × ℚ) :=
  let normalized_text := normalize_text text
  if GREETINGS.contains normalized_text = true then some ("SAFE", 99/100)
  else
    let words := pySplit normalized_text
    if words.length ≤ 6 ∧ words.all (fun word => GREETING_WORDS.contains word) = true then
      some ("SAFE", 99/100)
    else if GENUINE_MESSAGES.any (fun phrase => containsSub phrase normalized_text) = true then
      some ("SAFE", 99/100)
    else if words.length ≤ 3 ∨ normalized_text.length < MIN_SAFE_LENGTH then
      if SCAM_KEYWORDS.any (fun keyword => containsSub keyword normalized_text) = true then
        none
      else some ("SAFE", 49/50)
    else none

/-! ### Classification entry point (`inference.py`) -/

/-- `inference.GREETINGS`: the greeting registry defined in `inference.py`
(distinct from, and smaller than, the one in `rules.py`). -/
def INFERENCE_GREETINGS : List String :=
  ["hi", "hello", "hii", "hey", "hi there", "hello there",
   "good morning", "good afternoon", "good evening"]

/-- The output of one classifier invocation: `model.classes_`,
`model.predict_proba(...)[0]` and `model.predict(...)[0]`.  The model is an
external frozen artifact; its output is a parameter of the pipeline. -/
structure ModelOutput where
  classes : List Int
  probabilities : List ℚ
  predicted : Int
deriving DecidableEq

/-- `scam_idx = list(model.classes_).index(1) if 1 in model.classes_ else 0`. -/
def scamIdx (m : ModelOutput) : Nat :=
  if (1 : Int) ∈ m.classes then m.classes.indexOf 1 else 0

/-- `safe_idx = list(model.classes_).index(0) if 0 in model.classes_ else 1`. -/
def safeIdx (m : ModelOutput) : Nat :=
  if (0 : Int) ∈ m.classes then m.classes.indexOf 0 else 1

/-- Python `f'{q:.2f}'`: render a probability with two decimal digits. -/
def fmt2 (q : ℚ) : String :=
  let n : Int := round (q * 100)
  let m : Nat := n.natAbs
  let sign := if n < 0 then "-" else ""
  let ip := m / 100
  let fp := m % 100
  sign ++ toString ip ++ "." ++ (if fp < 10 then "0" else "") ++ toString fp

/-- Python `round(float(q), 2)`. -/
def round2 (q : ℚ) : ℚ := ((round (q * 100) : Int) : ℚ) / 100

/-- The body of the `try` block of `predict_scam`: vectorize, resolve
class indices, read both probabilities, take the hard prediction, apply the
low-confidence short-message downgrade, otherwise return the model verdict
with its reason string.  An `Except.error` from `clf` (or an out-of-range
probability index) models a Python exception reaching the `except` handler,
which returns the degraded `(SAFE, 0.5)` result. -/
def mlPath (clf : String → Except String ModelOutput)
    (preprocessed_message : String) : String × ℚ × String :=
  match clf preprocessed_message with
  | Except.error e =>
    ("SAFE", 1/2, "Error during prediction: " ++ e ++ ". Defaulted to SAFE.")
  | Except.ok m =>
    match m.probabilities[scamIdx m]?, m.probabilities[safeIdx m]? with
    | some scam_probability, some safe_probability =>
      let label := if m.predicted = 1 then "SCAM" else "SAFE"
      let confidence := if m.predicted = 1 then scam_probability else safe_probability
      if label = "SCAM" ∧ confidence < 65/100 ∧ (pySplit preprocessed_message).length < 5 then
        ("SAFE", 3/5,
         "Re-classified as SAFE due to low SCAM confidence (" ++ fmt2 confidence
           ++ ") on a short message.")
      else
        let reason :=
          if label = "SCAM" ∧ confidence > 4/5 then
            "Highly likely SCAM based on ML model prediction (" ++ fmt2 confidence
              ++ " confidence)."
          else if label = "SAFE" ∧ confidence > 4/5 then
            "Highly likely SAFE based on ML model prediction (" ++ fmt2 confidence
              ++ " confidence)."
          else
            "Classified by ML model with " ++ fmt2 confidence ++ " confidence."
        (label, round2 confidence, reason)
    | _, _ =>
      ("SAFE", 1/2, "Error during prediction: list index out of range. Defaulted to SAFE.")

/-- `inference.predict_scam`: empty-after-preprocessing check, greeting
override against `INFERENCE_GREETINGS`, then the classifier path.  (The
source's third step, the single-token check, is a `pass` with no effect.)
Note `predict_scam` never consults `rules.apply_rules`; `rules.py` is not
imported by `inference.py` or `app.py`. -/
def predict_scam (clf : String → Except String ModelOutput)
    (message : PyVal) : String × ℚ × String :=
  let preprocessed_message := preprocess_message message
  if preprocessed_message = "" then
    ("SAFE", 1,
     "Message was empty or contained only special characters; classified as SAFE by rule.")
  else if preprocessed_message ∈ INFERENCE_GREETINGS then
    ("SAFE", 99/100, "Classified as SAFE by greeting rule.")
  else
    mlPath clf preprocessed_message

/-- A classifier state that labels every input SCAM with probability 0.9
(classes `[0, 1]`, probabilities `[0.1, 0.9]`, hard prediction `1`). -/
def scamOracle : String → Except String ModelOutput :=
  fun _ => Except.ok ⟨[0, 1], [1/10, 9/10], 1⟩

/-- A classifier state that predicts SCAM with low probability 0.55. -/
def lowScamOracle : String → Except String ModelOutput :=
  fun _ => Except.ok ⟨[0, 1], [9/20, 11/20], 1⟩

/-- A classifier state whose invocation raises an exception. -/
def failOracle : String → Except String ModelOutput :=
  fun _ => Except.error "boom"

/-! ### Shape invariants of normalized text -/

/-- A character that can survive normalization: a lowercase ASCII letter
or the plain space. -/
def goodChar (c : Char) : Prop := isWordChar c = true ∨ c = ' '

/-- No two adjacent characters are both whitespace. -/
def noDS (l : List Char) : Prop :=
  l.Chain' fun a b => isSpaceChar a = false ∨ isSpaceChar b = false

/-- The first character, when present, is not whitespace. -/
def headNotSpace (l : List Char) : Prop :=
  ∀ c, l.head? = some c → isSpaceChar c = false

/-- The last character, when present, is not whitespace. -/
def lastNotSpace (l : List Char) : Prop :=
  ∀ c, l.getLast? = some c → isSpaceChar c = false

/-! ### Lemmas for idempotence of normalization -/

theorem space_toNat : (' ' : Char).toNat = 32 := rfl

theorem goodChar_space_eq (c : Char) (hg : goodChar c)
    (hs : isSpaceChar c = true) : c = ' ' := by
  rcases hg with hw | hw
  · simp only [isWordChar, Bool.and_eq_true, decide_eq_true_eq] at hw
    simp only [isSpaceChar, Bool.or_eq_true, decide_eq_true_eq] at hs
    omega
  · exact hw

theorem toLowerChar_good (c : Char) (hg : goodChar c) : toLowerChar c = c := by
  unfold toLowerChar
  rw [if_neg]
  rcases hg with hw | hw
  · simp only [isWordChar, Bool.and_eq_true, decide_eq_true_eq] at hw
    omega
  · subst hw
    rw [space_toNat]
    omega

theorem isKeepChar_good (c : Char) (hg : goodChar c) : isKeepChar c = true := by
  rcases hg with hw | hw
  · simp [isKeepChar, hw]
  · subst hw
    rfl

theorem map_toLowerChar_good (l : List Char) (hg : ∀ c ∈ l, goodChar c) :
    l.map toLowerChar = l := by
  induction l with
  | nil => rfl
  | cons a t ih =>
    simp only [List.map_cons]
    rw [toLowerChar_good a (hg a (List.mem_cons_self a t)),
      ih fun c hc => hg c (List.mem_cons_of_mem a hc)]

theorem mem_collapseWS : ∀ l, ∀ c ∈ collapseWS l,
    c = ' ' ∨ (c ∈ l ∧ isSpaceChar c = false)
  | [], c, hc => by simp [collapseWS] at hc
  | [a], c, hc => by
    by_cases ha : isSpaceChar a = true
    · simp only [collapseWS, if_pos ha, List.mem_singleton] at hc
      exact Or.inl hc
    · simp only [collapseWS, if_neg ha, List.mem_singleton] at hc
      subst hc
      exact Or.inr ⟨List.mem_singleton_self c, Bool.not_eq_true _ ▸ ha⟩
  | a :: b :: rest, c, hc => by
    by_cases ha : isSpaceChar a = true
    · by_cases hb : isSpaceChar b = true
      · rw [show collapseWS (a :: b :: rest) = collapseWS (b :: rest) from by
          simp [collapseWS, ha, hb]] at hc
        rcases mem_collapseWS (b :: rest) c hc with h | ⟨h1, h2⟩
        · exact Or.inl h
        · exact Or.inr ⟨List.mem_cons_of_mem a h1, h2⟩
      · rw [show collapseWS (a :: b :: rest) = ' ' :: collapseWS (b :: rest) from by
          simp [collapseWS, ha, hb]] at hc
        rcases List.mem_cons.mp hc with h | h
        · exact Or.inl h
        · rcases mem_collapseWS (b :: rest) c h with h | ⟨h1, h2⟩
          · exact Or.inl h
          · exact Or.inr ⟨List.mem_cons_of_mem a h1, h2⟩
    · rw [show collapseWS (a :: b :: rest) = a :: collapseWS (b :: rest) from by
        simp [collapseWS, ha]] at hc
      rcases List.mem_cons.mp hc with h | h
      · subst h
        exact Or.inr ⟨List.mem_cons_self c _, Bool.not_eq_true _ ▸ ha⟩
      · rcases mem_collapseWS (b :: rest) c h with h | ⟨h1, h2⟩
        · exact Or.inl h
        · exact Or.inr ⟨List.mem_cons_of_mem a h1, h2⟩

theorem collapseWS_cons_of_not_space (b : Char) (rest : List Char)
    (hb : isSpaceChar b = false) :
    collapseWS (b :: rest) = b :: collapseWS rest := by
  cases rest with
  | nil => simp [collapseWS, hb]
  | cons r rs => simp [collapseWS, hb]

theorem noDS_collapseWS : ∀ l, noDS (collapseWS l)
  | [] => List.chain'_nil
  | [a] => by
    by_cases ha : isSpaceChar a = true <;>
      simp only [collapseWS, if_pos, if_neg, ha, if_true, if_false] <;>
      exact List.chain'_singleton _
  | a :: b :: rest => by
    have ih := noDS_collapseWS (b :: rest)
    by_cases ha : isSpaceChar a = true
    · by_cases hb : isSpaceChar b = true
      · rw [noDS, show collapseWS (a :: b :: rest) = collapseWS (b :: rest) from by
          simp [collapseWS, ha, hb]]
        exact ih
      · rw [noDS, show collapseWS (a :: b :: rest) = ' ' :: collapseWS (b :: rest) from by
          simp [collapseWS, ha, hb]]
        rw [collapseWS_cons_of_not_space b rest (Bool.not_eq_true _ ▸ hb)] at ih ⊢
        exact List.chain'_cons.mpr ⟨Or.inr (Bool.not_eq_true _ ▸ hb), ih⟩
    · rw [noDS, collapseWS_cons_of_not_space a (b :: rest)
        (Bool.not_eq_true _ ▸ ha)]
      exact List.Chain'.cons' ih fun y _ => Or.inl (Bool.not_eq_true _ ▸ ha)

theorem chain'_dropWhile {R : Char → Char → Prop} (p : Char → Bool) :
    ∀ l : List Char, l.Chain' R → (l.dropWhile p).Chain' R
  | [], h => h
  | a :: t, h => by
    rw [List.dropWhile_cons]
    split
    · exact chain'_dropWhile p t h.tail
    · exact h

theorem noDS_reverse (l : List Char) (h : noDS l) : noDS l.reverse := by
  rw [noDS, List.chain'_reverse]
  exact h.imp fun a b hab => hab.symm

theorem noDS_stripList (l : List Char) (h : noDS l) : noDS (stripList l) := by
  unfold stripList
  exact noDS_reverse _ (chain'_dropWhile _ _ (noDS_reverse _ (chain'_dropWhile _ _ h)))

theorem headNotSpace_dropWhile (l : List Char) :
    headNotSpace (l.dropWhile isSpaceChar) := by
  induction l with
  | nil => intro c hc; simp at hc
  | cons a t ih =>
    rw [List.dropWhile_cons]
    split
    · exact ih
    · intro c hc
      simp only [List.head?_cons, Option.some.injEq] at hc
      subst hc
      simp_all

theorem lastNotSpace_tail (a : Char) (t : List Char)
    (h : lastNotSpace (a :: t)) : lastNotSpace t := by
  intro c hc
  apply h c
  rw [List.getLast?_cons, hc]
  rfl

theorem lastNotSpace_dropWhile (l : List Char) (h : lastNotSpace l) :
    lastNotSpace (l.dropWhile isSpaceChar) := by
  induction l with
  | nil => simpa using h
  | cons a t ih =>
    rw [List.dropWhile_cons]
    split
    · exact ih (lastNotSpace_tail a t h)
    · exact h

theorem headNotSpace_stripList (l : List Char) : headNotSpace (stripList l) := by
  unfold stripList
  intro c hc
  rw [List.head?_reverse] at hc
  refine lastNotSpace_dropWhile _ ?_ c hc
  intro d hd
  rw [List.getLast?_reverse] at hd
  exact headNotSpace_dropWhile l d hd

theorem lastNotSpace_stripList (l : List Char) : lastNotSpace (stripList l) := by
  unfold stripList
  intro c hc
  rw [List.getLast?_reverse] at hc
  exact headNotSpace_dropWhile _ c hc

theorem mem_stripList (l : List Char) (c : Char) (h : c ∈ stripList l) :
    c ∈ l := by
  unfold stripList at h
  rw [List.mem_reverse] at h
  have h2 := (List.dropWhile_sublist isSpaceChar).subset h
  rw [List.mem_reverse] at h2
  exact (List.dropWhile_sublist isSpaceChar).subset h2

theorem goodChar_normChars (l : List Char) :
    ∀ c ∈ normChars l, goodChar c := by
  intro c hc
  have hc2 := mem_stripList _ c hc
  rcases mem_collapseWS _ c hc2 with h | ⟨h1, h2⟩
  · exact Or.inr h
  · have := List.mem_filter.mp h1
    rcases Bool.or_eq_true _ _ |>.mp (by simpa [isKeepChar] using this.2) with hw | hs
    · exact Or.inl hw
    · exact absurd hs (by simp [h2])

theorem noDS_normChars (l : List Char) : noDS (normChars l) :=
  noDS_stripList _ (noDS_collapseWS _)

theorem collapseWS_fixed : ∀ l, (∀ c ∈ l, goodChar c) → noDS l →
    collapseWS l = l
  | [], _, _ => rfl
  | [a], hg, _ => by
    by_cases ha : isSpaceChar a = true
    · have ha' : a = ' ' := goodChar_space_eq a (hg a (List.mem_singleton_self a)) ha
      simp [collapseWS, ha, ha']
    · simp [collapseWS, ha]
  | a :: b :: rest, hg, hn => by
    have hg' : ∀ c ∈ b :: rest, goodChar c :=
      fun c hc => hg c (List.mem_cons_of_mem a hc)
    have hn' : noDS (b :: rest) := (List.chain'_cons.mp hn).2
    have ih := collapseWS_fixed (b :: rest) hg' hn'
    by_cases ha : isSpaceChar a = true
    · have ha' : a = ' ' := goodChar_space_eq a (hg a (List.mem_cons_self a _)) ha
      have hb : isSpaceChar b = false := by
        rcases (List.chain'_cons.mp hn).1 with h | h
        · rw [ha] at h; exact absurd h (by simp)
        · exact h
      simp [collapseWS, ha, hb, ih, ha']
    · rw [collapseWS_cons_of_not_space a (b :: rest) (Bool.not_eq_true _ ▸ ha), ih]

theorem dropWhile_eq_self_of_headNotSpace (l : List Char)
    (h : headNotSpace l) : l.dropWhile isSpaceChar = l := by
  cases l with
  | nil => rfl
  | cons a t =>
    rw [List.dropWhile_cons_of_neg]
    simp [h a rfl]

theorem stripList_fixed (l : List Char) (hh : headNotSpace l)
    (hl : lastNotSpace l) : stripList l = l := by
  unfold stripList
  rw [dropWhile_eq_self_of_headNotSpace l hh,
    dropWhile_eq_self_of_headNotSpace l.reverse
      (fun c hc => hl c (List.head?_reverse l ▸ hc)),
    List.reverse_reverse]

theorem normChars_fixed (l : List Char) (hg : ∀ c ∈ l, goodChar c)
    (hn : noDS l) (hh : headNotSpace l) (hl : lastNotSpace l) :
    normChars l = l := by
  unfold normChars
  rw [map_toLowerChar_good l hg,
    List.filter_eq_self.mpr fun c hc => isKeepChar_good c (hg c hc),
    collapseWS_fixed l hg hn, stripList_fixed l hh hl]

theorem normChars_idem (l : List Char) :
    normChars (normChars l) = normChars l :=
  normChars_fixed (normChars l) (goodChar_normChars l) (noDS_normChars l)
    (headNotSpace_stripList _) (lastNotSpace_stripList _)

/-! ### Claim theorems -/

/-- C7: normalization is idempotent: for every string `s`,
`normalize(normalize(s)) = normalize(s)`. -/
theorem normalize_text_idempotent (s : String) :
    normalize_text (PyVal.str (normalize_text (PyVal.str s))) =
      normalize_text (PyVal.str s) :=
  congrArg String.mk (normChars_idem s.data)

/-- C8: the normalizer lowercases and deletes every character outside
`{a-z, space}` entirely (no replacement by space), so letters on either
side of removed characters fuse: `normalize("win$1000now") = "winnow"`. -/
theorem normalize_win1000now_fuses :
    normalize_text (PyVal.str "win$1000now") = "winnow" := rfl

/-- C10: the two normalization implementations, `rules.normalize_text` and
`inference.preprocess_message`, agree on every input, string or not. -/
theorem normalize_text_eq_preprocess_message (v : PyVal) :
    normalize_text v = preprocess_message v := by
  cases v <;> rfl

/-- C9: whenever `apply_rules` returns a verdict, its label is `SAFE` and
its confidence is `0.99` or `0.98`; the rule layer never emits `SCAM`. -/
theorem apply_rules_verdict_always_safe (v : PyVal) (r : String × ℚ)
    (h : apply_rules v = some r) :
    r.1 = "SAFE" ∧ (r.2 = 99/100 ∨ r.2 = 49/50) := by
  simp only [apply_rules] at h
  split at h
  · injection h with h; subst h; exact ⟨rfl, Or.inl rfl⟩
  · split at h
    · injection h with h; subst h; exact ⟨rfl, Or.inl rfl⟩
    · split at h
      · injection h with h; subst h; exact ⟨rfl, Or.inl rfl⟩
      · split at h
        · split at h
          · exact Option.noConfusion h
          · injection h with h; subst h; exact ⟨rfl, Or.inr rfl⟩
        · exact Option.noConfusion h

/-- Witness for C9 at the input `"hi"`. -/
theorem apply_rules_verdict_always_safe_w :
    ("SAFE", (99:ℚ)/100).1 = "SAFE" ∧
      (("SAFE", (99:ℚ)/100).2 = 99/100 ∨ ("SAFE", (99:ℚ)/100).2 = 49/50) :=
  apply_rules_verdict_always_safe (PyVal.str "hi") ("SAFE", 99/100) rfl

/-- C3: a message whose normalized form contains a genuine-phrase registry
member and satisfies the short-message condition resolves to the
genuine-phrase confidence `0.99`, never the short-message `0.98`.  (All
rules that can fire before the genuine-phrase check also return `0.99`.) -/
theorem genuine_phrase_beats_short_rule (v : PyVal)
    (hg : GENUINE_MESSAGES.any
      (fun phrase => containsSub phrase (normalize_text v)) = true)
    (hs : (pySplit (normalize_text v)).length ≤ 3 ∨
      (normalize_text v).length < MIN_SAFE_LENGTH) :
    apply_rules v = some ("SAFE", 99/100) := by
  simp only [apply_rules]
  repeat' split
  all_goals simp_all

/-- Witness for C3 at `"running late"` (2 tokens, genuine phrase). -/
theorem genuine_phrase_beats_short_rule_w :
    apply_rules (PyVal.str "running late") = some ("SAFE", 99/100) :=
  genuine_phrase_beats_short_rule (PyVal.str "running late") rfl
    (Or.inl (by decide))

/-- C2 counterexample: `"congratulations"` is short (1 token) and contains
the scam keyword `"congratulations"`, yet `apply_rules` does not return
`None`: the genuine-phrase rule fires first and returns `(SAFE, 0.99)`. -/
theorem keyword_guard_cex :
    ((pySplit (normalize_text (PyVal.str "congratulations"))).length ≤ 3 ∨
      (normalize_text (PyVal.str "congratulations")).length < MIN_SAFE_LENGTH)
    ∧ SCAM_KEYWORDS.any (fun keyword =>
        containsSub keyword (normalize_text (PyVal.str "congratulations"))) = true
    ∧ apply_rules (PyVal.str "congratulations") = some ("SAFE", 99/100) :=
  ⟨Or.inl (by decide), rfl, rfl⟩

/-- C2 amended: the keyword guard holds only once the earlier rules have
not fired: a short keyword-bearing message that is not a registry greeting,
is not made of greeting tokens only, and contains no genuine phrase, gets
`None` from `apply_rules`. -/
theorem keyword_guard_amended (v : PyVal)
    (hshort : (pySplit (normalize_text v)).length ≤ 3 ∨
      (normalize_text v).length < MIN_SAFE_LENGTH)
    (hkw : SCAM_KEYWORDS.any
      (fun keyword => containsSub keyword (normalize_text v)) = true)
    (hgr : GREETINGS.contains (normalize_text v) = false)
    (hgw : ¬((pySplit (normalize_text v)).length ≤ 6 ∧
      (pySplit (normalize_text v)).all
        (fun word => GREETING_WORDS.contains word) = true))
    (hgen : GENUINE_MESSAGES.any
      (fun phrase => containsSub phrase (normalize_text v)) = false) :
    apply_rules v = none := by
  simp only [apply_rules]
  rw [if_neg (by rw [hgr]; simp), if_neg hgw, if_neg (by rw [hgen]; simp),
    if_pos hshort, if_pos hkw]

/-- Witness for C2's amended claim at `"free otp now"`. -/
theorem keyword_guard_amended_w :
    apply_rules (PyVal.str "free otp now") = none :=
  keyword_guard_amended (PyVal.str "free otp now") (Or.inl (by decide)) rfl
    rfl (by decide) rfl

/-- C1 counterexample: for the input `"hi good morning"`, `predict_scam`
does not return `(SAFE, 0.99)` by rule; the input is forwarded to the
classifier, and under a classifier state that predicts SCAM at probability
0.9 the returned label is `SCAM`.  The string is indeed not a member of
the greeting registry used by the classification entry point. -/
theorem hi_good_morning_cex :
    (predict_scam scamOracle (PyVal.str "hi good morning")).1 = "SCAM" ∧
    INFERENCE_GREETINGS.contains "hi good morning" = false :=
  ⟨by with_unfolding_all rfl, rfl⟩

/-- C1 amended: `predict_scam` implements no all-greeting-token rule and
`"hi good morning"` is not in its greeting registry, so the call reduces to
the classifier path and the result follows the model.  The rule module's
`apply_rules` — which `predict_scam` never invokes — does return
`(SAFE, 0.99)` for this input, but via exact greeting-registry membership:
the normalized string is a literal member of the `rules.py` registry. -/
theorem hi_good_morning_amended :
    (∀ clf, predict_scam clf (PyVal.str "hi good morning") =
      mlPath clf "hi good morning")
    ∧ apply_rules (PyVal.str "hi good morning") = some ("SAFE", 99/100)
    ∧ GREETINGS.contains (normalize_text (PyVal.str "hi good morning")) = true
    ∧ INFERENCE_GREETINGS.contains "hi good morning" = false := by
  refine ⟨fun clf => ?_, rfl, rfl, rfl⟩
  have hp : preprocess_message (PyVal.str "hi good morning") = "hi good morning" := rfl
  simp only [predict_scam, hp]
  rw [if_neg (by decide), if_neg (by decide)]

/-- C6: whenever preprocessing yields the empty string, `predict_scam`
returns `(SAFE, 1.0)` with the empty-after-normalization reason, for every
classifier state (the classifier and the rules are never consulted). -/
theorem empty_after_normalization_safe
    (clf : String → Except String ModelOutput) (v : PyVal)
    (h : preprocess_message v = "") :
    predict_scam clf v = ("SAFE", 1,
      "Message was empty or contained only special characters; classified as SAFE by rule.") := by
  simp only [predict_scam]
  rw [if_pos h]

/-- Witness for C6 at the inputs `""` and `"!!!123"`. -/
theorem empty_after_normalization_safe_w :
    predict_scam scamOracle (PyVal.str "") = ("SAFE", 1,
      "Message was empty or contained only special characters; classified as SAFE by rule.")
    ∧ predict_scam scamOracle (PyVal.str "!!!123") = ("SAFE", 1,
      "Message was empty or contained only special characters; classified as SAFE by rule.") :=
  ⟨empty_after_normalization_safe scamOracle (PyVal.str "") rfl,
   empty_after_normalization_safe scamOracle (PyVal.str "!!!123") rfl⟩

/-- C5: if the classifier invocation raises, `predict_scam` catches the
exception and returns the degraded result `(SAFE, 0.5)` with a reason
stating an error occurred during prediction and the default was SAFE. -/
theorem classifier_error_defaults_safe
    (clf : String → Except String ModelOutput) (v : PyVal) (e : String)
    (h1 : preprocess_message v ≠ "")
    (h2 : preprocess_message v ∉ INFERENCE_GREETINGS)
    (h3 : clf (preprocess_message v) = Except.error e) :
    predict_scam clf v = ("SAFE", 1/2,
      "Error during prediction: " ++ e ++ ". Defaulted to SAFE.") := by
  simp only [predict_scam]
  rw [if_neg h1, if_neg h2]
  simp only [mlPath, h3]

/-- Witness for C5 at `"win money now"` with a raising classifier. -/
theorem classifier_error_defaults_safe_w :
    predict_scam failOracle (PyVal.str "win money now") = ("SAFE", 1/2,
      "Error during prediction: boom. Defaulted to SAFE.") :=
  classifier_error_defaults_safe failOracle (PyVal.str "win money now")
    "boom" (by decide) (by decide) rfl

/-- C4: a SCAM prediction with scam probability below 0.65 on a message of
fewer than 5 tokens is overridden to `(SAFE, 0.60)` with the downgrade
reason. -/
theorem low_confidence_short_downgrade
    (clf : String → Except String ModelOutput) (v : PyVal)
    (m : ModelOutput) (p q : ℚ)
    (h1 : preprocess_message v ≠ "")
    (h2 : preprocess_message v ∉ INFERENCE_GREETINGS)
    (h3 : clf (preprocess_message v) = Except.ok m)
    (h4 : m.probabilities[scamIdx m]? = some p)
    (h5 : m.probabilities[safeIdx m]? = some q)
    (h6 : m.predicted = 1)
    (h7 : p < 65/100)
    (h8 : (pySplit (preprocess_message v)).length < 5) :
    predict_scam clf v = ("SAFE", 3/5,
      "Re-classified as SAFE due to low SCAM confidence (" ++ fmt2 p
        ++ ") on a short message.") := by
  simp only [predict_scam]
  rw [if_neg h1, if_neg h2]
  simp only [mlPath, h3, h4, h5, h6, if_pos rfl]
  rw [if_pos ⟨rfl, h7, h8⟩]
  rfl

/-- Witness for C4: classifier predicts SCAM at probability 0.55 on the
3-token message `"win prize now"`; the result is `(SAFE, 0.60)`. -/
theorem low_confidence_short_downgrade_w :
    predict_scam lowScamOracle (PyVal.str "win prize now") = ("SAFE", 3/5,
      "Re-classified as SAFE due to low SCAM confidence (0.55) on a short message.") :=
  (low_confidence_short_downgrade lowScamOracle (PyVal.str "win prize now")
    ⟨[0, 1], [9/20, 11/20], 1⟩ (11/20) (9/20) (by decide) (by decide) rfl rfl
    rfl rfl (by norm_num) (by decide)).trans (by with_unfolding_all rfl)

end ElderGuard
